import Mathlib

/-!
Shallow embedding of the TGBot_RSS pipeline (Go sources: `ai_handler.go`,
`ai_service.go`, `openai_adapter.go` and the feed-processing file), together
with theorems settling the specification claims.

Conventions of the embedding:
* Go `string` is Lean `String`; Go `len(s)` (UTF-8 byte length) is modelled by
  `(strBytes s).length` over an explicit UTF-8 encoder.
* Go `time.Time` at second precision (the storage format
  `"2006-01-02 15:04:05"`) is modelled as `Nat` seconds; the zero `time.Time`
  is `0`.
* Go `int64` user ids are modelled as `Int`; token counts as `Nat`;
  `float64` costs as `ℚ`.
* The SQLite store is modelled as association lists, one per table, mutated
  by explicit state passing; `INSERT OR REPLACE` is an idempotent upsert.
-/

/-! ## String and list helpers -/

/-- UTF-8 encoding of one character, as the list of its bytes (each a `Nat`
below 256).  Mirrors the standard UTF-8 scheme used by Go strings. -/
def utf8Bytes (c : Char) : List Nat :=
  let n := c.toNat
  if n < 0x80 then [n]
  else if n < 0x800 then
    [0xC0 + n / 64, 0x80 + n % 64]
  else if n < 0x10000 then
    [0xE0 + n / 4096, 0x80 + (n / 64) % 64, 0x80 + n % 64]
  else
    [0xF0 + n / 262144, 0x80 + (n / 4096) % 64, 0x80 + (n / 64) % 64,
     0x80 + n % 64]

/-- The UTF-8 bytes of a string; `(strBytes s).length` is Go's `len(s)`. -/
def strBytes (s : String) : List Nat :=
  s.data.flatMap utf8Bytes

/-- Substring containment on character lists (Go `strings.Contains`):
true iff `needle` occurs contiguously in `hay`; an empty needle always
matches. -/
def listContains : List Char → List Char → Bool
  | hay, needle =>
    needle.isPrefixOf hay ||
      match hay with
      | [] => false
      | _ :: t => listContains t needle

/-- Go `strings.Contains` on strings. -/
def strContains (hay needle : String) : Bool :=
  listContains hay.data needle.data

/-- Go `strings.ReplaceAll(s, "*", ".*")` at the character level: every `*`
becomes the two characters `.` `*`, all other characters are kept. -/
def replaceStar (s : String) : String :=
  ⟨s.data.flatMap fun c => if c = '*' then ['.', '*'] else [c]⟩

/-- The white-space class of Go `unicode.IsSpace` over the characters that
occur in practice (ASCII spacing plus NEL and NBSP). -/
def goSpace (c : Char) : Bool :=
  c = ' ' || c = '\t' || c = '\n' || c = Char.ofNat 11 || c = Char.ofNat 12 ||
  c = '\r' || c = Char.ofNat 0x85 || c = Char.ofNat 0xA0

/-- Go `strings.TrimSpace`: drop white space from both ends. -/
def strTrim (s : String) : String :=
  ⟨((s.data.dropWhile goSpace).reverse.dropWhile goSpace).reverse⟩

/-- ASCII lower-casing of one character (`A`–`Z` to `a`–`z`), the fragment
of Go `strings.ToLower` exercised here; other characters are unchanged. -/
def charToLower (c : Char) : Char :=
  if 65 ≤ c.toNat && c.toNat ≤ 90 then Char.ofNat (c.toNat + 32) else c

/-- Go `strings.ToLower` (ASCII fragment). -/
def strToLower (s : String) : String :=
  ⟨s.data.map charToLower⟩

/-- Go `strings.HasPrefix`. -/
def strStarts (s pre : String) : Bool :=
  pre.data.isPrefixOf s.data

/-- Drop the first character (Go `strings.TrimPrefix(s, "-")` after a
successful `HasPrefix(s, "-")` check drops exactly one character). -/
def strDropOne (s : String) : String :=
  ⟨s.data.drop 1⟩

/-! ## The wildcard regular expressions built by `matchesKeywords`

`matchesKeywords` builds the Go pattern `"^.*" + p + ".*$"` where `p` is the
lowercased keyword with every `*` replaced by `.*`, compiles it with
`regexp.Compile` and, on success, runs `MatchString` on the whole content.
The patterns so produced consist only of `^`, `$`, literal characters, `.`
(any character) and `.*` (any sequence), as long as the keyword itself
contains no other regexp metacharacter.  The compiler below handles exactly
that fragment and reports `none` (treated as a compile failure, after which
the code falls back to plain substring matching, like the source does on a
`regexp.Compile` error) on any other metacharacter. -/

/-- One token of a compiled wildcard pattern. -/
inductive RTok where
  | anyStar : RTok
  | anyChar : RTok
  | lit : Char → RTok
deriving DecidableEq

/-- Characters that are regexp metacharacters in Go's `regexp` syntax
(beyond `.`, `*`, `^`, `$`, which the fragment handles). -/
def isRegexMeta (c : Char) : Bool :=
  c = '(' || c = ')' || c = '[' || c = ']' || c = '{' || c = '}' ||
  c = '+' || c = '?' || c = '\\' || c = '|' || c = '^' || c = '$'

/-- Tokenize the body of a pattern (between `^` and `$`).  `.`+`*` becomes
`anyStar`, a lone `.` becomes `anyChar`, any plain character is a literal;
a stray `*` or any other metacharacter makes compilation fail. -/
def compileBody : List Char → Option (List RTok)
  | [] => some []
  | '.' :: '*' :: rest => (compileBody rest).map (RTok.anyStar :: ·)
  | '.' :: rest => (compileBody rest).map (RTok.anyChar :: ·)
  | '*' :: _ => none
  | c :: rest =>
      if isRegexMeta c then none
      else (compileBody rest).map (RTok.lit c :: ·)

/-- Compile a pattern of the shape `^body$` produced by `matchesKeywords`. -/
def compileGoPattern (p : String) : Option (List RTok) :=
  match p.data with
  | '^' :: rest =>
      match rest.reverse with
      | '$' :: mid => compileBody mid.reverse
      | _ => none
  | _ => none

/-- Fuel-indexed matcher (every recursive call shrinks
`tokens.length + input.length` by at least one, so any fuel above that sum
never reaches the `0` base case).  `anyStar` matches any (possibly empty)
sequence, `anyChar` exactly one character, a literal exactly itself; the
whole input must be consumed (the pattern is anchored on both sides). -/
def rMatchFuel : Nat → List RTok → List Char → Bool
  | 0, _, _ => false
  | _ + 1, [], [] => true
  | _ + 1, [], _ :: _ => false
  | _ + 1, RTok.lit _ :: _, [] => false
  | n + 1, RTok.lit c :: ts, x :: xs => c = x && rMatchFuel n ts xs
  | _ + 1, RTok.anyChar :: _, [] => false
  | n + 1, RTok.anyChar :: ts, _ :: xs => rMatchFuel n ts xs
  | n + 1, RTok.anyStar :: ts, s =>
      rMatchFuel n ts s ||
        match s with
        | [] => false
        | _ :: xs => rMatchFuel n (RTok.anyStar :: ts) xs

/-- Matching of a token list against a character list. -/
def rMatch (ts : List RTok) (s : List Char) : Bool :=
  rMatchFuel (ts.length + s.length + 1) ts s

/-- `regexp.Compile` + `MatchString` for the pattern fragment produced by
`matchesKeywords`: `none` models a compile error. -/
def goRegexMatch (pattern content : String) : Option Bool :=
  (compileGoPattern pattern).map fun toks => rMatch toks content.data

/-! ## Messages and the keyword matcher (`matchesKeywords`) -/

/-- An RSS message (`Message` in the Go source).  `PubDate` is seconds. -/
structure Message where
  Title : String
  Description : String
  Link : String
  PubDate : Nat
deriving DecidableEq

/-- The rule-scanning loop of `matchesKeywords`, parameterized by the regexp
oracle `re` (pattern, content ↦ `none` on compile failure).  Returns the
collected `(matchedKeywords, blockedKeywords)` in scan order.  Per rule:
trim; skip if empty; a leading `-` marks a block rule and is stripped once;
the rule is lowercased; if it contains `*` it is compiled to
`"^.*" ++ (rule with * ↦ .*) ++ ".*$"` and a successful compile-and-match
records the rule, otherwise (no match or compile failure) the code falls
back to plain substring containment of the lowercased rule in the content. -/
def matchRulesAux (re : String → String → Option Bool) (content : String) :
    List String → List String × List String
  | [] => ([], [])
  | kw0 :: rest =>
    let kw1 := strTrim kw0
    if kw1 = "" then matchRulesAux re content rest
    else
      let isBlock := strStarts kw1 "-"
      let kw := if isBlock then strDropOne kw1 else kw1
      let lower := strToLower kw
      let hit :=
        if strContains lower "*" then
          let pat := "^.*" ++ replaceStar lower ++ ".*$"
          match re pat content with
          | some true => true
          | _ => strContains content lower
        else strContains content lower
      let (m, b) := matchRulesAux re content rest
      if hit then
        if isBlock then (m, kw :: b) else (kw :: m, b)
      else (m, b)

/-- `matchesKeywords` with an explicit regexp oracle: empty rule list gives
an empty result; the content is the lowercased `Title ++ " " ++ Description`;
after scanning the full rule list, any collected block keyword forces the
empty result, otherwise the matched inclusion keywords are returned. -/
def matchesKeywordsWith (re : String → String → Option Bool)
    (msg : Message) (keywords : List String) : List String :=
  if keywords.length = 0 then []
  else
    let content := strToLower (msg.Title ++ " " ++ msg.Description)
    let (m, b) := matchRulesAux re content keywords
    if b.length > 0 then [] else m

/-- `matchesKeywords` from the Go source, with the regexp behaviour of
`regexp.Compile`/`MatchString` on the pattern fragment it generates. -/
def matchesKeywords (msg : Message) (keywords : List String) : List String :=
  matchesKeywordsWith goRegexMatch msg keywords

/-! ## The per-message user loop of `processSubscription` -/

/-- The user-keyword table (`user_keywords`), user id ↦ parsed rule list;
a Go map lookup of an absent user yields the empty (nil) list. -/
def userRules (userKeywords : List (Int × List String)) (uid : Int) :
    List String :=
  (userKeywords.lookup uid).getD []

/-- An observable send of `processSubscription`'s inner loop: a delivery to
a matched user, or the abbreviated admin notification (`sendother`). -/
inductive SendEvent where
  | deliver : Int → SendEvent
  | adminCopy : SendEvent
deriving DecidableEq

/-- The inner `for _, userID := range sub.Users` loop of
`processSubscription` for one message: skips users with an empty rule list,
runs `matchesKeywords`, and on a non-empty match emits a delivery event,
followed by the abbreviated admin copy exactly when the matched user id
equals the configured `ADMINIDS`. -/
def processSubscriptionUsers (adminId : Int)
    (userKeywords : List (Int × List String)) (msg : Message) :
    List Int → List SendEvent
  | [] => []
  | uid :: rest =>
    let kws := userRules userKeywords uid
    if kws.length = 0 then processSubscriptionUsers adminId userKeywords msg rest
    else
      let matched := matchesKeywords msg kws
      if matched.length = 0 then
        processSubscriptionUsers adminId userKeywords msg rest
      else
        SendEvent.deliver uid ::
          ((if uid = adminId then [SendEvent.adminCopy] else []) ++
            processSubscriptionUsers adminId userKeywords msg rest)

/-! ## Cursor store and `fetchRSS` -/

/-- One `feed_data` row: `(last_update_time, latest_title)`.  Times are in
seconds (the storage format has second precision). -/
structure CursorRow where
  lastUpdateTime : Nat
  latestTitle : String
deriving DecidableEq

/-- The `feed_data` table: feed name ↦ row (names are unique, the key). -/
abbrev CursorStore := List (String × CursorRow)

/-- One parsed feed item as returned by the gofeed collaborator. -/
structure FeedItem where
  title : String
  description : String
  link : String
  published : Option Nat
  updated : Option Nat
deriving DecidableEq

/-- `getItemTime`: prefer the published time, fall back to the updated
time, fall back to the fetch wall-clock time `now`. -/
def getItemTime (now : Nat) (item : FeedItem) : Nat :=
  match item.published with
  | some t => t
  | none =>
    match item.updated with
    | some t => t
    | none => now

/-- `getLastUpdateTime`: read the cursor row for `rssName`.  On no row
(`sql.ErrNoRows`) the code INSERTs a fresh row whose `last_update_time` is
the current wall-clock time `now` (formatted) and `latest_title` is empty,
and returns the zero time (`0`) to the caller; on a found row it returns the
stored time.  Result: `(reported time, updated store)`. -/
def getLastUpdateTime (store : CursorStore) (now : Nat) (rssName : String) :
    Nat × CursorStore :=
  match store.lookup rssName with
  | some row => (row.lastUpdateTime, store)
  | none => (0, store ++ [(rssName, ⟨now, ""⟩)])

/-- `updateLastTime`: a plain SQL UPDATE of the row keyed `rssName` — it
overwrites an existing row unconditionally and does nothing when no row
exists. -/
def updateLastTime (store : CursorStore) (rssName : String)
    (updateTime : Nat) (title : String) : CursorStore :=
  store.map fun p => if p.1 = rssName then (rssName, ⟨updateTime, title⟩) else p

/-- The item-scanning loop of `fetchRSS`: in provider order, track the
maximum item time seen (`latestTime`, started at zero, bumped on strictly
greater) and collect as messages exactly the items whose time is strictly
after `lastUpdateTime`. -/
def scanItems (now lastUpdateTime : Nat) (items : List FeedItem) :
    List Message × Nat :=
  match items with
  | [] => ([], 0)
  | item :: rest =>
    let pubTime := getItemTime now item
    let (msgs, latest) := scanItems now lastUpdateTime rest
    let latest' := if latest < pubTime then pubTime else latest
    if lastUpdateTime < pubTime then
      (⟨item.title, item.description, item.link, pubTime⟩ :: msgs, latest')
    else (msgs, latest')

/-- `fetchRSS` (post-parse): with the fetched `items` for feed `rssName`,
return the new-message list and the updated cursor store.  Zero items: no
cursor interaction.  Otherwise read the cursor (creating it on first fetch),
select items strictly after it, and — whenever the maximum observed item
time is non-zero — unconditionally overwrite the cursor with that maximum
and the first item's title. -/
def fetchRSS (store : CursorStore) (now : Nat) (rssName : String)
    (items : List FeedItem) : List Message × CursorStore :=
  match items with
  | [] => ([], store)
  | item0 :: _ =>
    let (lastUpdateTime, store1) := getLastUpdateTime store now rssName
    let (messages, latestTime) := scanItems now lastUpdateTime items
    let store2 :=
      if latestTime ≠ 0 then updateLastTime store1 rssName latestTime item0.title
      else store1
    (messages, store2)

/-! ## MD5 (`crypto/md5` as used by `generateContentHash`)

A direct implementation of MD5 over byte lists, with 32-bit words as `Nat`
reduced `% 2^32` where overflow matters.  Validated below against the RFC
1321 test vectors. -/

/-- The 64 MD5 round constants `⌊2^32·|sin(i+1)|⌋`. -/
def md5K : List Nat :=
  [0xd76aa478, 0xe8c7b756, 0x242070db, 0xc1bdceee,
   0xf57c0faf, 0x4787c62a, 0xa8304613, 0xfd469501,
   0x698098d8, 0x8b44f7af, 0xffff5bb1, 0x895cd7be,
   0x6b901122, 0xfd987193, 0xa679438e, 0x49b40821,
   0xf61e2562, 0xc040b340, 0x265e5a51, 0xe9b6c7aa,
   0xd62f105d, 0x02441453, 0xd8a1e681, 0xe7d3fbc8,
   0x21e1cde6, 0xc33707d6, 0xf4d50d87, 0x455a14ed,
   0xa9e3e905, 0xfcefa3f8, 0x676f02d9, 0x8d2a4c8a,
   0xfffa3942, 0x8771f681, 0x6d9d6122, 0xfde5380c,
   0xa4beea44, 0x4bdecfa9, 0xf6bb4b60, 0xbebfbc70,
   0x289b7ec6, 0xeaa127fa, 0xd4ef3085, 0x04881d05,
   0xd9d4d039, 0xe6db99e5, 0x1fa27cf8, 0xc4ac5665,
   0xf4292244, 0x432aff97, 0xab9423a7, 0xfc93a039,
   0x655b59c3, 0x8f0ccc92, 0xffeff47d, 0x85845dd1,
   0x6fa87e4f, 0xfe2ce6e0, 0xa3014314, 0x4e0811a1,
   0xf7537e82, 0xbd3af235, 0x2ad7d2bb, 0xeb86d391]

/-- The per-round left-rotation amounts. -/
def md5S : List Nat :=
  [7, 12, 17, 22, 7, 12, 17, 22, 7, 12, 17, 22, 7, 12, 17, 22,
   5, 9, 14, 20, 5, 9, 14, 20, 5, 9, 14, 20, 5, 9, 14, 20,
   4, 11, 16, 23, 4, 11, 16, 23, 4, 11, 16, 23, 4, 11, 16, 23,
   6, 10, 15, 21, 6, 10, 15, 21, 6, 10, 15, 21, 6, 10, 15, 21]

/-- 32-bit bitwise complement. -/
def not32 (x : Nat) : Nat := 4294967295 - x % 4294967296

/-- 32-bit left rotation by `n` (with `0 < n < 32` in all uses). -/
def rotl32 (x n : Nat) : Nat :=
  (((x % 4294967296) <<< n) % 4294967296) ||| ((x % 4294967296) >>> (32 - n))

/-- One of the 64 MD5 operations on the state `(a, b, c, d)` given the 16
message words `m`. -/
def md5Step (m : List Nat) (st : Nat × Nat × Nat × Nat) (i : Nat) :
    Nat × Nat × Nat × Nat :=
  let (a, b, c, d) := st
  let (f, g) :=
    if i < 16 then ((b &&& c) ||| (not32 b &&& d), i)
    else if i < 32 then ((b &&& d) ||| (c &&& not32 d), (5 * i + 1) % 16)
    else if i < 48 then (b ^^^ c ^^^ d, (3 * i + 5) % 16)
    else (c ^^^ (b ||| not32 d), (7 * i) % 16)
  let f' := (f + a + md5K.getD i 0 + m.getD g 0) % 4294967296
  (d, (b + rotl32 f' (md5S.getD i 0)) % 4294967296, b, c)

/-- Little-endian 32-bit words from a byte list. -/
def toWords : List Nat → List Nat
  | b0 :: b1 :: b2 :: b3 :: rest =>
      (b0 + 256 * b1 + 65536 * b2 + 16777216 * b3) :: toWords rest
  | _ => []

/-- Process one 512-bit chunk. -/
def md5Chunk (m : List Nat) (st : Nat × Nat × Nat × Nat) :
    Nat × Nat × Nat × Nat :=
  let (a, b, c, d) := (List.range 64).foldl (md5Step m) st
  let (h0, h1, h2, h3) := st
  ((h0 + a) % 4294967296, (h1 + b) % 4294967296,
   (h2 + c) % 4294967296, (h3 + d) % 4294967296)

/-- Fold `md5Chunk` over consecutive 64-byte chunks (fuel-indexed; each
step consumes 64 ≥ 1 bytes, so `bytes.length` fuel always suffices). -/
def md5BlocksFuel : Nat → List Nat → Nat × Nat × Nat × Nat →
    Nat × Nat × Nat × Nat
  | 0, _, st => st
  | _, [], st => st
  | n + 1, b :: rest, st =>
      md5BlocksFuel n ((b :: rest).drop 64)
        (md5Chunk (toWords ((b :: rest).take 64)) st)

/-- Fold `md5Chunk` over all 64-byte chunks of `bytes`. -/
def md5Blocks (bytes : List Nat) (st : Nat × Nat × Nat × Nat) :
    Nat × Nat × Nat × Nat :=
  md5BlocksFuel bytes.length bytes st

/-- Little-endian 8-byte encoding of a 64-bit value. -/
def le8 (n : Nat) : List Nat :=
  [n % 256, (n / 256) % 256, (n / 65536) % 256, (n / 16777216) % 256,
   (n / 4294967296) % 256, (n / 1099511627776) % 256,
   (n / 281474976710656) % 256, (n / 72057594037927936) % 256]

/-- MD5 padding: a `0x80` byte, zeros to 56 mod 64, then the bit length. -/
def md5Pad (msg : List Nat) : List Nat :=
  let zeros := (119 - msg.length % 64) % 64
  msg ++ [0x80] ++ List.replicate zeros 0 ++
    le8 ((msg.length * 8) % 18446744073709551616)

/-- Lowercase hexadecimal digit. -/
def hexDigitChar (n : Nat) : Char :=
  if n < 10 then Char.ofNat (48 + n) else Char.ofNat (87 + n)

/-- Two lowercase hex digits of a byte. -/
def byteHex (b : Nat) : List Char :=
  [hexDigitChar (b / 16), hexDigitChar (b % 16)]

/-- The four little-endian bytes of a 32-bit word. -/
def wordBytesLE (w : Nat) : List Nat :=
  [w % 256, (w / 256) % 256, (w / 65536) % 256, (w / 16777216) % 256]

/-- `hex.EncodeToString(md5.Sum(msg))`: the lowercase hex MD5 digest. -/
def md5Hex (msg : List Nat) : String :=
  let (a, b, c, d) :=
    md5Blocks (md5Pad msg) (0x67452301, 0xefcdab89, 0x98badcfe, 0x10325476)
  ⟨(wordBytesLE a ++ wordBytesLE b ++ wordBytesLE c ++ wordBytesLE d).flatMap
    byteHex⟩

/-! ## AI data model (`ai_service.go`, `ai_handler.go`, `openai_adapter.go`) -/

/-- `TranslateResult` (`ai_service.go`).  `CreatedAt` in seconds. -/
structure TranslateResult where
  OriginalText : String
  TranslatedText : String
  SourceLang : String
  TargetLang : String
  Provider : String
  Model : String
  TokensUsed : Nat
  ProcessingTime : Int
  CreatedAt : Nat
deriving DecidableEq

/-- `SummaryResult` (`ai_service.go`). -/
structure SummaryResult where
  OriginalText : String
  SummaryText : String
  MaxLength : Int
  MinLength : Int
  Provider : String
  Model : String
  TokensUsed : Nat
  ProcessingTime : Int
  CreatedAt : Nat
deriving DecidableEq

/-- `AIError` (`ai_service.go`); the Go field `Type` (the coarse error
category: network, api, quota, invalid_request) is `ErrType` here because
`Type` is reserved in Lean. -/
structure AIError where
  Code : String
  Message : String
  Provider : String
  ErrType : String
deriving DecidableEq

/-- `NewAIError(provider, code, message, errorType)`. -/
def NewAIError (provider code message errorType : String) : AIError :=
  { Code := code, Message := message, Provider := provider,
    ErrType := errorType }

/-- One `ai_usage_stats` row (per calendar day). -/
structure AIUsageRow where
  translateCount : Nat
  summarizeCount : Nat
  totalTokens : Nat
  totalCost : ℚ
deriving DecidableEq

/-- The persistent state touched by `AIHandler`: the two slices of the
`ai_processing_records` table (keyed by content hash, split by the
`content_type` column exactly as every query filters on it) and the
`ai_usage_stats` table keyed by date string.  Go `float64` cost is modelled
as `ℚ`. -/
structure AIState where
  transCache : List (String × TranslateResult)
  sumCache : List (String × SummaryResult)
  usage : List (String × AIUsageRow)
deriving DecidableEq

/-- `INSERT OR REPLACE` on a table keyed by a string: replace the existing
row under the key, or append a fresh one. -/
def storeRecord {α : Type} (table : List (String × α)) (key : String)
    (v : α) : List (String × α) :=
  if (table.lookup key).isSome then
    table.map fun p => if p.1 = key then (key, v) else p
  else table ++ [(key, v)]

/-- `generateContentHash(content, contentType, params...)`: joins
`contentType`, `content` and each parameter with `"|"` and hex-encodes the
MD5 digest of the result. -/
def generateContentHash (content contentType : String)
    (params : List String) : String :=
  md5Hex (strBytes
    (params.foldl (fun acc p => acc ++ "|" ++ p) (contentType ++ "|" ++ content)))

/-- `calculateCost`: per-1000-token rate 0.002 for `"openai"` and the same
flat default otherwise (the Go `float64` arithmetic is modelled exactly
over `ℚ`). -/
def calculateCost (tokensUsed : Nat) (provider : String) : ℚ :=
  if provider.toLower = "openai" then (tokensUsed : ℚ) * (2 / 1000) / 1000
  else (tokensUsed : ℚ) * (2 / 1000) / 1000

/-- `recordUsage`: if an `ai_usage_stats` row for `today` exists, increment
the operation's counter and add tokens and cost; otherwise insert a fresh
row with this call as its first entry. -/
def recordUsage (usage : List (String × AIUsageRow))
    (today operationType : String) (tokensUsed : Nat) (cost : ℚ) :
    List (String × AIUsageRow) :=
  match usage.lookup today with
  | some row =>
    let row' :=
      if operationType = "translate" then
        { row with translateCount := row.translateCount + 1,
                   totalTokens := row.totalTokens + tokensUsed,
                   totalCost := row.totalCost + cost }
      else
        { row with summarizeCount := row.summarizeCount + 1,
                   totalTokens := row.totalTokens + tokensUsed,
                   totalCost := row.totalCost + cost }
    usage.map fun p => if p.1 = today then (today, row') else p
  | none =>
    usage ++ [(today,
      if operationType = "translate" then
        ⟨1, 0, tokensUsed, cost⟩ else ⟨0, 1, tokensUsed, cost⟩)]

/-- `CacheTranslation` stores the columns listed in its INSERT: everything
except `created_at`, which the statement leaves to the schema.
Modelled from the spec: the `ai_processing_records` schema (not under
`src/`) gives `created_at` the record's creation time, here the insertion
instant `now`. -/
def cacheTranslationRow (r : TranslateResult) (now : Nat) : TranslateResult :=
  { r with CreatedAt := now }

/-- `CacheSummary` stores original/processed text, provider, model, tokens
and processing time but not the length bounds, so the row read back by
`GetCachedSummary` carries zero `MaxLength`/`MinLength`.
Modelled from the spec: `created_at` (schema not under `src/`) is the
insertion instant `now`. -/
def cacheSummaryRow (r : SummaryResult) (now : Nat) : SummaryResult :=
  { r with MaxLength := 0, MinLength := 0, CreatedAt := now }

/-- `OpenAIAdapter.Summarize` up to the provider HTTP exchange: if the byte
length of `text` is below `minLength` it refuses with the
`"text_too_short"` error of category `invalid_request` without any API
call; otherwise the result is whatever the API exchange `apiOutcome`
produced. -/
def OpenAIAdapter.Summarize (name : String) (text : String)
    (maxLength minLength : Int)
    (apiOutcome : Except AIError SummaryResult) :
    Except AIError SummaryResult :=
  if ((strBytes text).length : Int) < minLength then
    .error (NewAIError name "text_too_short"
      ("文本长度" ++ toString (strBytes text).length ++ "小于最小长度" ++
        toString minLength)
      "invalid_request")
  else apiOutcome

/-- `HandleTranslateRequest`: hash the `(text, "translate", sourceLang,
targetLang)` tuple; on a cached row return it with no service call; on a
miss run the provider (its outcome is the parameter `service`; the
adapter's `Translate` does no input validation before its API call), and on
success upsert the cache row and record usage.  Returns the result, the new
state, and whether the provider API call was performed. -/
def HandleTranslateRequest (s : AIState) (today : String) (now : Nat)
    (service : Except AIError TranslateResult)
    (text sourceLang targetLang : String) :
    Except AIError TranslateResult × AIState × Bool :=
  let contentHash := generateContentHash text "translate" [sourceLang, targetLang]
  match s.transCache.lookup contentHash with
  | some cached => (.ok cached, s, false)
  | none =>
    match service with
    | .error e => (.error e, s, true)
    | .ok result =>
      let s1 := { s with
        transCache :=
          storeRecord s.transCache contentHash (cacheTranslationRow result now) }
      let s2 := { s1 with
        usage := recordUsage s1.usage today "translate" result.TokensUsed
          (calculateCost result.TokensUsed result.Provider) }
      (.ok result, s2, true)

/-- `HandleSummarizeRequest`: hash `(text, "summarize", "max-min")`; on a
cached row return it with no service call; on a miss run
`OpenAIAdapter.Summarize` (which refuses short input before its API call,
whose outcome is the parameter `apiOutcome`), and on success upsert the
cache row and record usage.  The final component tells whether the provider
API exchange was reached. -/
def HandleSummarizeRequest (s : AIState) (today : String) (now : Nat)
    (providerName : String) (apiOutcome : Except AIError SummaryResult)
    (text : String) (maxLength minLength : Int) :
    Except AIError SummaryResult × AIState × Bool :=
  let contentHash := generateContentHash text "summarize"
    [toString maxLength ++ "-" ++ toString minLength]
  match s.sumCache.lookup contentHash with
  | some cached => (.ok cached, s, false)
  | none =>
    let apiReached := decide (minLength ≤ ((strBytes text).length : Int))
    match OpenAIAdapter.Summarize providerName text maxLength minLength
        apiOutcome with
    | .error e => (.error e, s, apiReached)
    | .ok result =>
      let s1 := { s with
        sumCache :=
          storeRecord s.sumCache contentHash (cacheSummaryRow result now) }
      let s2 := { s1 with
        usage := recordUsage s1.usage today "summarize" result.TokensUsed
          (calculateCost result.TokensUsed result.Provider) }
      (.ok result, s2, true)

/-! ## `cleanHTMLContent`

The Go function is a fixed pipeline of `regexp.ReplaceAllString` passes.
Every pass scans left to right for the leftmost match, replaces it, and
resumes after the replacement (non-overlapping), which the fuel-indexed
scanners below implement; each scanner consumes at least one input
character per step, so fuel equal to the input length always suffices. -/

/-- Go's regexp `\s` class: `[\t\n\f\r ]`. -/
def goWs (c : Char) : Bool :=
  c = ' ' || c = '\t' || c = '\n' || c = Char.ofNat 12 || c = '\r'

/-- Consume `[^>]*>`: the characters up to and including the first `>`;
`none` when no `>` remains (the tag pattern fails to match). -/
def skipToGt : List Char → Option (List Char)
  | [] => none
  | '>' :: rest => some rest
  | _ :: rest => skipToGt rest

/-- Pass 1: delete every `<img[^>]*>` match. -/
def removeImgTagsFuel : Nat → List Char → List Char
  | 0, s => s
  | n + 1, s =>
    match s with
    | '<' :: 'i' :: 'm' :: 'g' :: rest =>
      match skipToGt rest with
      | some rem => removeImgTagsFuel n rem
      | none => '<' :: removeImgTagsFuel n ('i' :: 'm' :: 'g' :: rest)
    | c :: rest => c :: removeImgTagsFuel n rest
    | [] => []

/-- Pass 1 wrapper. -/
def removeImgTags (s : List Char) : List Char := removeImgTagsFuel s.length s

/-- The tail of a `<br\s*\/?>` match after the literal `<br`: optional
whitespace, an optional `/`, then `>` (since `/` and `>` are not
whitespace, the greedy `\s*` is deterministic here). -/
def brTail (cs : List Char) : Option (List Char) :=
  match cs.dropWhile goWs with
  | '/' :: '>' :: rest => some rest
  | '>' :: rest => some rest
  | _ => none

/-- Pass 2: replace every `<br\s*\/?>` match by a newline. -/
def replaceBrTagsFuel : Nat → List Char → List Char
  | 0, s => s
  | n + 1, s =>
    match s with
    | '<' :: 'b' :: 'r' :: rest =>
      match brTail rest with
      | some rem => '\n' :: replaceBrTagsFuel n rem
      | none => '<' :: replaceBrTagsFuel n ('b' :: 'r' :: rest)
    | c :: rest => c :: replaceBrTagsFuel n rest
    | [] => []

/-- Pass 2 wrapper. -/
def replaceBrTags (s : List Char) : List Char := replaceBrTagsFuel s.length s

/-- `regexp.ReplaceAllString` for a pattern that is a non-empty literal:
leftmost, non-overlapping replacement of `pat` by `rep`. -/
def replaceLitFuel (pat rep : List Char) : Nat → List Char → List Char
  | 0, s => s
  | n + 1, s =>
    match s with
    | [] => []
    | c :: rest =>
      if !pat.isEmpty && pat.isPrefixOf (c :: rest) then
        rep ++ replaceLitFuel pat rep n ((c :: rest).drop pat.length)
      else c :: replaceLitFuel pat rep n rest

/-- Literal-pattern replacement wrapper. -/
def replaceLit (pat rep : String) (s : List Char) : List Char :=
  replaceLitFuel pat.data rep.data s.length s

/-- The tail of an `<a\s+href=["']([^"']+)["'][^>]*>` match after the
literal `<a`: required whitespace, `href=`, an opening quote of either
kind, the non-empty captured run of non-quote characters, a closing quote
of either kind, then `[^>]*>`.  Returns the capture and the remainder. -/
def aTagTail (rest : List Char) : Option (List Char × List Char) :=
  match rest with
  | [] => none
  | c :: _ =>
    if !goWs c then none
    else
      match rest.dropWhile goWs with
      | 'h' :: 'r' :: 'e' :: 'f' :: '=' :: q :: rest2 =>
        if q = '"' || q = Char.ofNat 39 then
          let notQuote := fun ch : Char => !(ch = '"' || ch = Char.ofNat 39)
          let url := rest2.takeWhile notQuote
          match rest2.dropWhile notQuote with
          | _ :: rest4 =>
            if url.isEmpty then none
            else
              match skipToGt rest4 with
              | some rem => some (url, rem)
              | none => none
          | [] => none
        else none
      | _ => none

/-- Pass: mark every `<a\s+href=["']([^"']+)["'][^>]*>` as
`§§§A§§§$1§§§`. -/
def replaceATagsFuel : Nat → List Char → List Char
  | 0, s => s
  | n + 1, s =>
    match s with
    | '<' :: 'a' :: rest =>
      match aTagTail rest with
      | some (url, rem) =>
          "§§§A§§§".data ++ url ++ "§§§".data ++ replaceATagsFuel n rem
      | none => '<' :: replaceATagsFuel n ('a' :: rest)
    | c :: rest => c :: replaceATagsFuel n rest
    | [] => []

/-- `<a href=...>` marking wrapper. -/
def replaceATags (s : List Char) : List Char := replaceATagsFuel s.length s

/-- Pass: remove every remaining `<[^>]*>`. -/
def removeAllTagsFuel : Nat → List Char → List Char
  | 0, s => s
  | n + 1, s =>
    match s with
    | '<' :: rest =>
      match skipToGt rest with
      | some rem => removeAllTagsFuel n rem
      | none => '<' :: removeAllTagsFuel n rest
    | c :: rest => c :: removeAllTagsFuel n rest
    | [] => []

/-- Tag-removal wrapper. -/
def removeAllTags (s : List Char) : List Char := removeAllTagsFuel s.length s

/-- Offset of the leftmost `§§§` reachable by the lazy `(.*?)` (whose `.`
does not cross a newline): `none` when a newline comes first. -/
def findMarker : List Char → Option Nat
  | [] => none
  | c :: rest =>
    if ("§§§".data).isPrefixOf (c :: rest) then some 0
    else if c = '\n' then none
    else (findMarker rest).map (· + 1)

/-- Pass: restore `§§§A§§§(.*?)§§§` to `<a href="$1">`. -/
def replaceARestoreFuel : Nat → List Char → List Char
  | 0, s => s
  | n + 1, s =>
    match s with
    | [] => []
    | c :: rest =>
      if ("§§§A§§§".data).isPrefixOf (c :: rest) then
        match findMarker ((c :: rest).drop 7) with
        | some i =>
            "<a href=\"".data ++ ((c :: rest).drop 7).take i ++ ['"', '>'] ++
              replaceARestoreFuel n ((c :: rest).drop (7 + i + 3))
        | none => c :: replaceARestoreFuel n rest
      else c :: replaceARestoreFuel n rest

/-- Anchor-restore wrapper. -/
def replaceARestore (s : List Char) : List Char :=
  replaceARestoreFuel s.length s

/-- Pass 4: collapse every maximal run of three or more newlines
(`\n{3,}`, greedy) into exactly two. -/
def collapseNewlinesFuel : Nat → List Char → List Char
  | 0, s => s
  | n + 1, s =>
    match s with
    | '\n' :: '\n' :: '\n' :: rest =>
        '\n' :: '\n' :: collapseNewlinesFuel n (rest.dropWhile (· = '\n'))
    | c :: rest => c :: collapseNewlinesFuel n rest
    | [] => []

/-- Newline-collapse wrapper. -/
def collapseNewlines (s : List Char) : List Char :=
  collapseNewlinesFuel s.length s

/-- `cleanHTMLContent`: the full pipeline — drop `<img>` tags, turn `<br>`
tags into newlines, protect the Telegram-supported tags behind `§§§`
markers (with the `<a href=...>` URL captured into its marker), strip all
remaining tags, restore the protected tags, and collapse runs of three or
more newlines. -/
def cleanHTMLContent (htmlContent : String) : String :=
  let c := removeImgTags htmlContent.data
  let c := replaceBrTags c
  let c := replaceLit "<b>" "§§§B§§§" c
  let c := replaceLit "</b>" "§§§/B§§§" c
  let c := replaceLit "<i>" "§§§I§§§" c
  let c := replaceLit "</i>" "§§§/I§§§" c
  let c := replaceLit "<u>" "§§§U§§§" c
  let c := replaceLit "</u>" "§§§/U§§§" c
  let c := replaceLit "<s>" "§§§S§§§" c
  let c := replaceLit "</s>" "§§§/S§§§" c
  let c := replaceLit "<code>" "§§§CODE§§§" c
  let c := replaceLit "</code>" "§§§/CODE§§§" c
  let c := replaceLit "<pre>" "§§§PRE§§§" c
  let c := replaceLit "</pre>" "§§§/PRE§§§" c
  let c := replaceATags c
  let c := replaceLit "</a>" "§§§/A§§§" c
  let c := removeAllTags c
  let c := replaceLit "§§§B§§§" "<b>" c
  let c := replaceLit "§§§/B§§§" "</b>" c
  let c := replaceLit "§§§I§§§" "<i>" c
  let c := replaceLit "§§§/I§§§" "</i>" c
  let c := replaceLit "§§§U§§§" "<u>" c
  let c := replaceLit "§§§/U§§§" "</u>" c
  let c := replaceLit "§§§S§§§" "<s>" c
  let c := replaceLit "§§§/S§§§" "</s>" c
  let c := replaceLit "§§§CODE§§§" "<code>" c
  let c := replaceLit "§§§/CODE§§§" "</code>" c
  let c := replaceLit "§§§PRE§§§" "<pre>" c
  let c := replaceLit "§§§/PRE§§§" "</pre>" c
  let c := replaceARestore c
  let c := replaceLit "§§§/A§§§" "</a>" c
  let c := collapseNewlines c
  ⟨c⟩

/-! ## `processMessageWithAI` -/

/-- `UserAIPreferences` (`ai_handler.go`); timestamps in seconds. -/
structure UserAIPreferences where
  UserID : Int
  AutoTranslate : Bool
  AutoSummarize : Bool
  PreferredLang : String
  MaxSummaryLength : Int
  CreatedAt : Nat
  UpdatedAt : Nat
deriving DecidableEq

/-- The `globalConfig.AI.Features` switches and summarization bounds read
by `processMessageWithAI`. -/
structure AIFeaturesConfig where
  translationEnabled : Bool
  summarizationEnabled : Bool
  summarizeMaxLength : Int
  summarizeMinLength : Int
deriving DecidableEq

/-- `ProcessedMessage` (`ai_handler.go`). -/
structure ProcessedMessage where
  Original : Message
  Translated : Option TranslateResult
  Summary : Option SummaryResult
  HasAI : Bool
deriving DecidableEq

/-- `processMessageWithAI`: clean the HTML out of `Title ++ " " ++
Description`; if the cleaned content is under 50 bytes, no AI processing at
all; otherwise run translation when both the user preference and the
global translation feature are on, then summarization likewise (with the
user's summary length, defaulted to the configured one when zero), each
step tolerating failure.  `HasAI` records whether at least one step
succeeded.  The outcome of each provider HTTP exchange, were it performed,
is given by `transService`/`sumApiOutcome`; the final `Nat` counts the
provider API calls performed. -/
def processMessageWithAI (s : AIState) (today : String) (now : Nat)
    (cfg : AIFeaturesConfig) (providerName : String)
    (transService : Except AIError TranslateResult)
    (sumApiOutcome : Except AIError SummaryResult)
    (msg : Message) (userPrefs : UserAIPreferences) :
    ProcessedMessage × AIState × Nat :=
  let content := cleanHTMLContent (msg.Title ++ " " ++ msg.Description)
  if (strBytes content).length < 50 then
    ({ Original := msg, Translated := none, Summary := none,
       HasAI := false }, s, 0)
  else
    let step1 :=
      if userPrefs.AutoTranslate && cfg.translationEnabled then
        let (res, s', called) :=
          HandleTranslateRequest s today now transService content ""
            userPrefs.PreferredLang
        match res with
        | .ok r => (some r, s', if called then 1 else 0)
        | .error _ => ((none : Option TranslateResult), s',
            if called then 1 else 0)
      else (none, s, 0)
    let (translated, s1, calls1) := step1
    let step2 :=
      if userPrefs.AutoSummarize && cfg.summarizationEnabled then
        let maxLength :=
          if userPrefs.MaxSummaryLength = 0 then cfg.summarizeMaxLength
          else userPrefs.MaxSummaryLength
        let (res, s', called) :=
          HandleSummarizeRequest s1 today now providerName sumApiOutcome
            content maxLength cfg.summarizeMinLength
        match res with
        | .ok r => (some r, s', if called then 1 else 0)
        | .error _ => ((none : Option SummaryResult), s',
            if called then 1 else 0)
      else (none, s1, 0)
    let (summary, s2, calls2) := step2
    ({ Original := msg, Translated := translated, Summary := summary,
       HasAI := translated.isSome || summary.isSome }, s2, calls1 + calls2)

/-- Concrete translate result for exercising the cache path. -/
def wTransResult : TranslateResult :=
  ⟨"hello world hello", "你好世界", "", "zh-CN", "openai", "gpt-3.5-turbo",
   10, 5, 0⟩

/-- Concrete summary result for exercising the cache path. -/
def wSumResult : SummaryResult :=
  ⟨"hello world hello", "hi", 100, 3, "openai", "gpt-3.5-turbo", 12, 7, 0⟩

/-- Concrete provider error. -/
def wErr : AIError := ⟨"network_error", "boom", "openai", "network"⟩

/-- The empty AI state. -/
def wState0 : AIState := ⟨[], [], []⟩

/-- State after one successful translate call on the empty state. -/
def wTransState1 : AIState :=
  (HandleTranslateRequest wState0 "2026-10-11" 1 (.ok wTransResult)
    "hello world hello" "" "zh-CN").2.1

/-- State after one successful summarize call on the empty state. -/
def wSumState1 : AIState :=
  (HandleSummarizeRequest wState0 "2026-10-11" 1 "openai" (.ok wSumResult)
    "hello world hello" 100 3).2.1

/-- Concrete preference row with both AI features switched on. -/
def wPrefsOn : UserAIPreferences := ⟨7, true, true, "zh-CN", 200, 0, 0⟩

/-- Concrete feature configuration with both AI features enabled. -/
def wCfgOn : AIFeaturesConfig := ⟨true, true, 200, 10⟩

/-! ## Claims -/

/-- Sanity anchor: the RFC 1321 test vector for `"abc"`. -/
theorem md5Hex_abc :
    md5Hex (strBytes "abc") = "900150983cd24fb0d6963f7d28e17f72" := by decide

/-- Sanity anchor: the RFC 1321 test vector for the empty message. -/
theorem md5Hex_empty :
    md5Hex (strBytes "") = "d41d8cd98f00b204e9800998ecf8427e" := by decide


/-- C4: for every message and rule list, if any block rule (a `-`-marked
keyword) matches the lowercased title+description — i.e. the block set
collected by the full scan of the rule list is non-empty — then
`matchesKeywords` returns the empty result, regardless of the inclusion
matches collected alongside. -/
theorem c4_block_rule_veto (msg : Message) (keywords : List String)
    (hblock : (matchRulesAux goRegexMatch
        (strToLower (msg.Title ++ " " ++ msg.Description)) keywords).2 ≠ []) :
    matchesKeywords msg keywords = [] := by
  have hk : ¬ keywords.length = 0 := by
    intro h0
    rw [List.length_eq_zero] at h0
    subst h0
    exact hblock rfl
  unfold matchesKeywords matchesKeywordsWith
  rcases h : matchRulesAux goRegexMatch
      (strToLower (msg.Title ++ " " ++ msg.Description)) keywords with ⟨m, b⟩
  rw [h] at hblock
  have hb : 0 < b.length := List.length_pos.mpr hblock
  simp [hk, h, hb, Nat.pos_iff_ne_zero.mp hb]

/-- C4 witness: with rules `["-sale", "50%"]` on a "Sale / 50% off"
message, the block set is non-empty and the result is empty even though
`"50%"` matches. -/
theorem c4_block_rule_veto_witness :
    (matchRulesAux goRegexMatch
        (strToLower ((Message.mk "Sale" "50% off" "" 0).Title ++ " " ++
          (Message.mk "Sale" "50% off" "" 0).Description))
        ["-sale", "50%"]).2 ≠ [] ∧
    matchesKeywords ⟨"Sale", "50% off", "", 0⟩ ["-sale", "50%"] = [] :=
  ⟨by decide, c4_block_rule_veto ⟨"Sale", "50% off", "", 0⟩ ["-sale", "50%"]
    (by decide)⟩

/-- C5 counterexample: the claim says the rule `"dea*"` does not match
content containing only `"idea"`; in the code the compiled pattern is
`^.*dea.*.*$`, which `"idea"` satisfies, so the rule does match. -/
theorem c5_counterexample :
    matchesKeywords ⟨"idea", "", "", 0⟩ ["dea*"] = ["dea*"] := by decide

/-- C5 amended: the wildcard rule is compiled with `*` mapped to "any
sequence" but additionally wrapped in a leading and trailing `.*` (and the
literal text is not escaped), so the pattern is effectively unanchored
containment: `"dea*"` matches content containing "deal" and "dealer", and
also content containing only "idea". -/
theorem c5_amended :
    matchesKeywords ⟨"deal", "", "", 0⟩ ["dea*"] = ["dea*"] ∧
    matchesKeywords ⟨"dealer", "", "", 0⟩ ["dea*"] = ["dea*"] ∧
    matchesKeywords ⟨"idea", "", "", 0⟩ ["dea*"] = ["dea*"] := by decide

/-- C6: a user with an empty rule list (or absent from the per-user keyword
map, which yields the empty list) never receives a delivery event:
`matchesKeywords` on the empty rule list is empty, and the subscription
loop skips such users before matching, for every message and user list. -/
theorem c6_empty_keywords_no_delivery (adminId uid : Int)
    (userKeywords : List (Int × List String)) (msg : Message)
    (users : List Int)
    (hempty : userRules userKeywords uid = []) :
    matchesKeywords msg [] = [] ∧
    SendEvent.deliver uid ∉ processSubscriptionUsers adminId userKeywords msg users := by
  refine ⟨rfl, ?_⟩
  induction users with
  | nil => simp [processSubscriptionUsers]
  | cons u rest ih =>
    by_cases hu : u = uid
    · subst hu
      simp only [processSubscriptionUsers, hempty]
      exact ih
    · simp only [processSubscriptionUsers]
      split
      · exact ih
      · split
        · exact ih
        · intro hmem
          rcases List.mem_cons.mp hmem with h | h
          · exact hu (SendEvent.deliver.inj h.symm)
          · rcases List.mem_append.mp h with h2 | h2
            · split at h2 <;> simp_all
            · exact ih h2

/-- C6 witness: user 1 has no entry in the keyword map, so even though the
message matches user 2's rules, user 1 gets no delivery event. -/
theorem c6_empty_keywords_no_delivery_witness :
    userRules [(2, ["sale"])] 1 = [] ∧
    (matchesKeywords ⟨"Sale", "50% off", "", 0⟩ [] = [] ∧
      SendEvent.deliver 1 ∉
        processSubscriptionUsers 0 [(2, ["sale"])] ⟨"Sale", "50% off", "", 0⟩
          [1, 2]) :=
  ⟨by decide,
    c6_empty_keywords_no_delivery 0 1 [(2, ["sale"])] ⟨"Sale", "50% off", "", 0⟩
      [1, 2] (by decide)⟩

/-- C8 counterexample: the claim says the configured administrator receives
an abbreviated duplicate for every delivery event; here user 1's delivery
event produces no admin copy because the admin id is 999 ≠ 1 (the code
sends the copy only when the matched user *is* the admin). -/
theorem c8_counterexample :
    SendEvent.deliver 1 ∈
      processSubscriptionUsers 999 [(1, ["sale"])] ⟨"Sale", "50% off", "", 0⟩ [1] ∧
    SendEvent.adminCopy ∉
      processSubscriptionUsers 999 [(1, ["sale"])] ⟨"Sale", "50% off", "", 0⟩ [1] := by
  decide

/-- C8 amended: the abbreviated admin notification is emitted exactly when
the administrator id itself is the recipient of a delivery event (its own
keywords matched); delivery events for other users never produce one. -/
theorem c8_amended (adminId : Int) (userKeywords : List (Int × List String))
    (msg : Message) (users : List Int) :
    SendEvent.adminCopy ∈ processSubscriptionUsers adminId userKeywords msg users ↔
    SendEvent.deliver adminId ∈ processSubscriptionUsers adminId userKeywords msg users := by
  induction users with
  | nil => simp [processSubscriptionUsers]
  | cons u rest ih =>
    simp only [processSubscriptionUsers]
    split
    · exact ih
    · split
      · exact ih
      · by_cases hu : u = adminId
        · subst hu
          simp [List.mem_cons, List.mem_append, ih]
        · have hu2 : ¬ adminId = u := fun h => hu h.symm
          rw [if_neg hu]
          simp [List.mem_cons, ih, hu2]

/-- Helper: with a zero stored cursor, the scan selects every item whose
effective time is positive, in order. -/
theorem scanItems_zero_cursor (now : Nat) (items : List FeedItem)
    (hpos : ∀ it ∈ items, 0 < getItemTime now it) :
    (scanItems now 0 items).1 =
      items.map fun it => ⟨it.title, it.description, it.link, getItemTime now it⟩ := by
  induction items with
  | nil => rfl
  | cons it rest ih =>
    have h0 := hpos it (List.mem_cons_self it rest)
    have ih' := ih fun x hx => hpos x (List.mem_cons_of_mem _ hx)
    rcases h : scanItems now 0 rest with ⟨msgs, latest⟩
    rw [h] at ih'
    have ih2 : msgs = List.map
        (fun it => Message.mk it.title it.description it.link (getItemTime now it))
        rest := ih'
    simp only [scanItems, h, List.map_cons]
    simp [h0, ih2]

/-- C2 counterexample: on the first fetch of a feed (no cursor row), the
created row stores the current wall-clock time (not a zero value), and the
new-item set contains every fetched item rather than being empty. -/
theorem c2_counterexample :
    (getLastUpdateTime [] 100 "feed").2 = [("feed", ⟨100, ""⟩)] ∧
    (fetchRSS [] 100 "feed" [⟨"t1", "d1", "l1", some 5, none⟩]).1 =
      [⟨"t1", "d1", "l1", 5⟩] := by decide

/-- C2 amended: on the first fetch of a feed, the cursor read creates a row
carrying the current time (reporting zero time to the caller), and
`fetchRSS` consequently treats every fetched item with a positive effective
timestamp as new on cycle 1 (a first-cycle backlog flood, not an empty
new-item set). -/
theorem c2_amended (store : CursorStore) (now : Nat) (name : String)
    (items : List FeedItem)
    (hnone : store.lookup name = none)
    (hpos : ∀ it ∈ items, 0 < getItemTime now it)
    (hne : items ≠ []) :
    (getLastUpdateTime store now name).2 = store ++ [(name, ⟨now, ""⟩)] ∧
    (fetchRSS store now name items).1 =
      items.map fun it => ⟨it.title, it.description, it.link, getItemTime now it⟩ := by
  constructor
  · unfold getLastUpdateTime
    rw [hnone]
  · obtain ⟨item0, rest, rfl⟩ : ∃ a l, items = a :: l := by
      cases items with
      | nil => exact absurd rfl hne
      | cons a l => exact ⟨a, l, rfl⟩
    have hscan := scanItems_zero_cursor now (item0 :: rest) hpos
    rcases h : scanItems now 0 (item0 :: rest) with ⟨msgs, latest⟩
    rw [h] at hscan
    have hscan2 : msgs = List.map
        (fun it => Message.mk it.title it.description it.link (getItemTime now it))
        (item0 :: rest) := hscan
    simp only [fetchRSS, getLastUpdateTime, hnone, h]
    exact hscan2

/-- C2 amended witness: a fresh feed with one item timed 5 at wall clock
100 floods that item and records the row. -/
theorem c2_amended_witness :
    ([] : CursorStore).lookup "feed" = none ∧
    ((getLastUpdateTime [] 100 "feed").2 = [("feed", ⟨100, ""⟩)] ∧
      (fetchRSS [] 100 "feed" [⟨"t1", "d1", "l1", some 5, none⟩]).1 =
        [⟨"t1", "d1", "l1", 5⟩] ∧ [(⟨"t1", "d1", "l1", some 5, none⟩ : FeedItem)] ≠ []) ∧
    (∀ it ∈ [(⟨"t1", "d1", "l1", some 5, none⟩ : FeedItem)], 0 < getItemTime 100 it) := by
  refine ⟨by decide, ⟨?_, ?_, by decide⟩, by decide⟩
  · exact (c2_amended [] 100 "feed" [⟨"t1", "d1", "l1", some 5, none⟩]
      (by decide) (by decide) (by decide)).1
  · have h := (c2_amended [] 100 "feed" [⟨"t1", "d1", "l1", some 5, none⟩]
      (by decide) (by decide) (by decide)).2
    simpa using h

/-- Helper: a SQL UPDATE on an existing row leaves the key with exactly the
new values. -/
theorem lookup_updateLastTime (store : CursorStore) (name : String)
    (t : Nat) (ti : String) (h : (store.lookup name).isSome) :
    (updateLastTime store name t ti).lookup name = some ⟨t, ti⟩ := by
  induction store with
  | nil => simp [List.lookup] at h
  | cons p rest ih =>
    rcases p with ⟨k, v⟩
    by_cases hp : k = name
    · subst hp
      simp only [updateLastTime, List.map_cons, eq_self_iff_true, if_true]
      simp [List.lookup]
    · have hne : (name == k) = false := by
        rw [beq_eq_false_iff_ne]
        exact fun hh => hp hh.symm
      simp only [updateLastTime, List.map_cons]
      rw [if_neg hp]
      simp only [updateLastTime] at ih
      simp only [List.lookup, hne] at h ⊢
      exact ih h

/-- C3 counterexample: with a stored cursor of 100 and a fetch whose
maximum item timestamp is only 50, the claim requires a no-op, but the code
overwrites the cursor down to 50 (the cursor is not monotonically
non-decreasing). -/
theorem c3_counterexample :
    ((fetchRSS [("feed", ⟨100, "old"⟩)] 200 "feed"
        [⟨"t1", "d1", "l1", some 50, none⟩]).2).lookup "feed" =
      some ⟨50, "t1"⟩ ∧ (50 : Nat) < 100 := by decide

/-- C3 amended: whenever the feed has a stored cursor row and the fetch
yields at least one item with a non-zero maximum effective timestamp, the
cursor is unconditionally overwritten with that maximum (and the first
item's title) — also when the maximum does not exceed the stored value, so
the stored time can decrease. -/
theorem c3_amended (store : CursorStore) (now : Nat) (name : String)
    (item0 : FeedItem) (rest : List FeedItem) (row : CursorRow)
    (hrow : store.lookup name = some row)
    (hlatest : (scanItems now row.lastUpdateTime (item0 :: rest)).2 ≠ 0) :
    ((fetchRSS store now name (item0 :: rest)).2).lookup name =
      some ⟨(scanItems now row.lastUpdateTime (item0 :: rest)).2, item0.title⟩ := by
  rcases h : scanItems now row.lastUpdateTime (item0 :: rest) with ⟨msgs, latest⟩
  have hlatest2 : latest ≠ 0 := by rw [h] at hlatest; exact hlatest
  simp only [fetchRSS, getLastUpdateTime, hrow, h]
  simp only [ne_eq, hlatest2, not_false_iff, if_true]
  exact lookup_updateLastTime store name latest item0.title
    (by rw [hrow]; rfl)

/-- C3 amended witness: stored cursor 100, fetched maximum 50 — the row is
overwritten to 50. -/
theorem c3_amended_witness :
    ([("feed", (⟨100, "old"⟩ : CursorRow))].lookup "feed" =
      some (⟨100, "old"⟩ : CursorRow)) ∧
    (scanItems 200 100 [⟨"t1", "d1", "l1", some 50, none⟩]).2 ≠ 0 ∧
    ((fetchRSS [("feed", ⟨100, "old"⟩)] 200 "feed"
        [⟨"t1", "d1", "l1", some 50, none⟩]).2).lookup "feed" =
      some ⟨(scanItems 200 100 [⟨"t1", "d1", "l1", some 50, none⟩]).2, "t1"⟩ :=
  ⟨by decide, by decide,
    c3_amended [("feed", ⟨100, "old"⟩)] 200 "feed"
      ⟨"t1", "d1", "l1", some 50, none⟩ [] ⟨100, "old"⟩ (by decide) (by decide)⟩

/-- Helper: replacing the row under a present key makes the key map to the
new value. -/
theorem lookup_map_replace {α : Type} (t : List (String × α)) (k : String)
    (v : α) (h : (t.lookup k).isSome) :
    (t.map fun p => if p.1 = k then (k, v) else p).lookup k = some v := by
  induction t with
  | nil => simp [List.lookup] at h
  | cons p rest ih =>
    rcases p with ⟨k', v'⟩
    by_cases hp : k' = k
    · subst hp
      simp only [List.map_cons, eq_self_iff_true, if_true]
      simp [List.lookup]
    · have hne : (k == k') = false := by
        rw [beq_eq_false_iff_ne]
        exact fun hh => hp hh.symm
      simp only [List.map_cons]
      rw [if_neg hp]
      simp only [List.lookup, hne] at h ⊢
      exact ih h

/-- Helper: appending a row for an absent key makes the key map to it. -/
theorem lookup_append_missing {α : Type} (t : List (String × α)) (k : String)
    (v : α) (h : t.lookup k = none) :
    (t ++ [(k, v)]).lookup k = some v := by
  induction t with
  | nil => simp [List.lookup]
  | cons p rest ih =>
    rcases p with ⟨k', v'⟩
    by_cases hp : k' = k
    · subst hp
      simp [List.lookup] at h
    · have hne : (k == k') = false := by
        rw [beq_eq_false_iff_ne]
        exact fun hh => hp hh.symm
      simp only [List.cons_append, List.lookup, hne] at h ⊢
      exact ih h

/-- Helper: after an `INSERT OR REPLACE` the key maps to the stored row. -/
theorem lookup_storeRecord {α : Type} (t : List (String × α)) (k : String)
    (v : α) : (storeRecord t k v).lookup k = some v := by
  unfold storeRecord
  by_cases h : (t.lookup k).isSome
  · rw [if_pos h]
    exact lookup_map_replace t k v h
  · rw [if_neg h]
    exact lookup_append_missing t k v (Option.not_isSome_iff_eq_none.mp h)

/-- C1: after a first successful call, a second call of either AI handler
with identical `(operation, text, params)` performs no provider call,
returns a cached success, and leaves the whole state — including the day's
usage counters — unchanged (this holds for any later day, wall clock and
provider outcome). -/
theorem c1_at_most_one_provider_call
    (s : AIState) (today today2 : String) (now now2 : Nat)
    (providerName : String)
    (o1 o2 : Except AIError TranslateResult)
    (o1s o2s : Except AIError SummaryResult)
    (text sourceLang targetLang : String) (maxLength minLength : Int)
    (r : TranslateResult) (rs : SummaryResult)
    (s1 s1s : AIState) (b1 b1s : Bool)
    (h1 : HandleTranslateRequest s today now o1 text sourceLang targetLang =
      (.ok r, s1, b1))
    (h2 : HandleSummarizeRequest s today now providerName o1s text maxLength
      minLength = (.ok rs, s1s, b1s)) :
    (∃ r2, HandleTranslateRequest s1 today2 now2 o2 text sourceLang targetLang =
      (.ok r2, s1, false)) ∧
    (∃ rs2, HandleSummarizeRequest s1s today2 now2 providerName o2s text
      maxLength minLength = (.ok rs2, s1s, false)) := by
  constructor
  · rcases hl : s.transCache.lookup
        (generateContentHash text "translate" [sourceLang, targetLang]) with _ | cached
    · rcases o1 with e | result
      · simp only [HandleTranslateRequest, hl] at h1
        exact absurd (congrArg Prod.fst h1) (by simp)
      · simp only [HandleTranslateRequest, hl, Prod.mk.injEq] at h1
        obtain ⟨hres, hstate, hflag⟩ := h1
        subst hstate
        simp only [HandleTranslateRequest, lookup_storeRecord]
        exact ⟨cacheTranslationRow result now, rfl⟩
    · simp only [HandleTranslateRequest, hl, Prod.mk.injEq] at h1
      obtain ⟨hres, hstate, hflag⟩ := h1
      subst hstate
      simp only [HandleTranslateRequest, hl]
      exact ⟨cached, rfl⟩
  · rcases hl : s.sumCache.lookup
        (generateContentHash text "summarize"
          [toString maxLength ++ "-" ++ toString minLength]) with _ | cached
    · rcases hsum : OpenAIAdapter.Summarize providerName text maxLength
          minLength o1s with e | result
      · simp only [HandleSummarizeRequest, hl, hsum] at h2
        exact absurd (congrArg Prod.fst h2) (by simp)
      · simp only [HandleSummarizeRequest, hl, hsum, Prod.mk.injEq] at h2
        obtain ⟨hres, hstate, hflag⟩ := h2
        subst hstate
        simp only [HandleSummarizeRequest, lookup_storeRecord]
        exact ⟨cacheSummaryRow result now, rfl⟩
    · simp only [HandleSummarizeRequest, hl, Prod.mk.injEq] at h2
      obtain ⟨hres, hstate, hflag⟩ := h2
      subst hstate
      simp only [HandleSummarizeRequest, hl]
      exact ⟨cached, rfl⟩

/-- C1 witness: after one successful translate and one successful summarize
on the empty state, repeating each call — even with a failing provider —
returns a cached success, keeps the state (hence the usage counters)
unchanged, and performs no provider call. -/
theorem c1_at_most_one_provider_call_witness :
    (∃ r2, HandleTranslateRequest wTransState1 "2026-10-12" 2 (.error wErr)
      "hello world hello" "" "zh-CN" = (.ok r2, wTransState1, false)) ∧
    (∃ rs2, HandleSummarizeRequest wSumState1 "2026-10-12" 2 "openai"
      (.error wErr) "hello world hello" 100 3 = (.ok rs2, wSumState1, false)) :=
  c1_at_most_one_provider_call wState0 "2026-10-11" "2026-10-12" 1 2 "openai"
    (.ok wTransResult) (.error wErr) (.ok wSumResult) (.error wErr)
    "hello world hello" "" "zh-CN" 100 3 wTransResult wSumResult
    wTransState1 wSumState1 true true rfl rfl

/-- C7: a summarize request whose text is shorter than `minLength` (with no
cached record under its digest, as from the initial state — the adapter is
only consulted on a cache miss) fails with the `text_too_short` error of
category `invalid_request`, writes no cache record (the state, hence also
the day's usage counters, is unchanged), and performs no provider call. -/
theorem c7_short_summarize_fails (s : AIState) (today providerName : String)
    (now : Nat) (apiOutcome : Except AIError SummaryResult)
    (text : String) (maxLength minLength : Int)
    (hshort : ((strBytes text).length : Int) < minLength)
    (hmiss : s.sumCache.lookup (generateContentHash text "summarize"
      [toString maxLength ++ "-" ++ toString minLength]) = none) :
    HandleSummarizeRequest s today now providerName apiOutcome text maxLength
      minLength =
      (.error (NewAIError providerName "text_too_short"
        ("文本长度" ++ toString (strBytes text).length ++ "小于最小长度" ++
          toString minLength) "invalid_request"), s, false) := by
  simp only [HandleSummarizeRequest, hmiss, OpenAIAdapter.Summarize,
    if_pos hshort]
  simp [not_le.mpr hshort]

/-- C7 witness: summarizing the 2-byte text `"ab"` with `minLength = 5`
from the empty state yields the `invalid_request` error and leaves the
state untouched. -/
theorem c7_short_summarize_fails_witness :
    ((strBytes "ab").length : Int) < 5 ∧
    (⟨[], [], []⟩ : AIState).sumCache.lookup
      (generateContentHash "ab" "summarize" [toString (10 : Int) ++ "-" ++
        toString (5 : Int)]) = none ∧
    HandleSummarizeRequest ⟨[], [], []⟩ "2026-10-11" 0 "openai" (.ok wSumResult)
      "ab" 10 5 =
      (.error (NewAIError "openai" "text_too_short"
        ("文本长度" ++ toString (strBytes "ab").length ++ "小于最小长度" ++
          toString (5 : Int)) "invalid_request"), ⟨[], [], []⟩, false) :=
  ⟨by decide, rfl,
    c7_short_summarize_fails ⟨[], [], []⟩ "2026-10-11" "openai" 0
      (.ok wSumResult) "ab" 10 5 (by decide) rfl⟩

/-- C9 counterexample: the digest preimage joins operation, text and
parameters with a bare `"|"`, so two distinct translate input tuples whose
fields merely contain `"|"` produce the same digest with certainty, not
with hash-collision probability. -/
theorem c9_counterexample :
    (("a|b", ["c", "d"]) ≠ ("a", ["b", "c|d"])) ∧
    generateContentHash "a|b" "translate" ["c", "d"] =
      generateContentHash "a" "translate" ["b", "c|d"] := by
  exact ⟨by decide, rfl⟩

/-- C9 amended: the digest is a deterministic function of its inputs (same
inputs always give the same digest), but the unescaped `"|"`-joined
preimage is not injective on input tuples, so certain distinct tuples
deterministically share a digest. -/
theorem c9_amended :
    (∀ (content contentType : String) (params : List String),
      generateContentHash content contentType params =
        generateContentHash content contentType params) ∧
    (∃ t1 p1 t2 p2, (t1, p1) ≠ (t2, p2) ∧
      generateContentHash t1 "translate" p1 =
        generateContentHash t2 "translate" p2) :=
  ⟨fun _ _ _ => rfl, ⟨"x|y", ["z", "w"], "x", ["y", "z|w"], by decide, rfl⟩⟩

/-- C10: when the cleaned content (HTML-stripped `Title ++ " " ++
Description`) is shorter than 50 bytes, `processMessageWithAI` performs no
translation and no summarization (zero provider calls, state unchanged) and
returns `HasAI = false` — whatever the user preferences and feature flags
say. -/
theorem c10_short_content_no_ai (s : AIState) (today : String) (now : Nat)
    (cfg : AIFeaturesConfig) (providerName : String)
    (transService : Except AIError TranslateResult)
    (sumApiOutcome : Except AIError SummaryResult)
    (msg : Message) (userPrefs : UserAIPreferences)
    (hshort : (strBytes (cleanHTMLContent
      (msg.Title ++ " " ++ msg.Description))).length < 50) :
    processMessageWithAI s today now cfg providerName transService
      sumApiOutcome msg userPrefs = (⟨msg, none, none, false⟩, s, 0) := by
  simp only [processMessageWithAI, if_pos hshort]

/-- C10 witness: a tiny message with every AI switch on still comes back
with `HasAI = false`, no results, no state change and zero provider
calls. -/
theorem c10_short_content_no_ai_witness :
    (strBytes (cleanHTMLContent
      ((Message.mk "hi" "" "" 0).Title ++ " " ++
        (Message.mk "hi" "" "" 0).Description))).length < 50 ∧
    processMessageWithAI ⟨[], [], []⟩ "2026-10-11" 0 wCfgOn "openai"
      (.ok wTransResult) (.ok wSumResult) ⟨"hi", "", "", 0⟩ wPrefsOn =
      (⟨⟨"hi", "", "", 0⟩, none, none, false⟩, ⟨[], [], []⟩, 0) :=
  ⟨by decide,
    c10_short_content_no_ai ⟨[], [], []⟩ "2026-10-11" 0 wCfgOn "openai"
      (.ok wTransResult) (.ok wSumResult) ⟨"hi", "", "", 0⟩ wPrefsOn
      (by decide)⟩
